import Mathlib

/-!
Verification of the `libos_lock.h` lock primitive (Gramine LibOS).

Shallow embedding of `src/libos/include/libos_lock.h`:

* `struct libos_lock` has two fields: `lock` (a PAL event handle, `NULL`
  when uninitialized/destroyed) and `owner` (a thread id, `0` when unheld).
  We model the handle as `Option Nat` (`none` = `NULL`) and the owner as
  `Nat` (`0` = unheld sentinel).
* Each operation is embedded as a pure function that returns the new lock
  state together with the ordered list of side effects it performs
  (assignments to the lock's fields and calls into the PAL layer), so that
  statement ordering in the C source is preserved and can be reasoned about.
* The PAL event-creation call is a parameter `pal : Bool → Bool → Option Nat`
  (arguments: `init_signaled`, `auto_clear`; `none` models a nonzero error
  return).  The PAL event-wait call inside `_lock`'s retry loop is a
  parameter `w : Nat → Int` giving the return value of the k-th wait call;
  the unbounded C loop is run under explicit fuel.
* `assert(l->lock)` in `_lock`/`_unlock` is modelled by a distinguished
  `assertFail` outcome.  Note that `_destroy_lock` in the source has no
  assertion at all.
* The `LOCK_TRACING` macro layer is modelled by wrapper functions taking a
  `tracing : Bool` flag: when `false` they are definitionally the untraced
  functions (the `#else` branch of the header); when `true` they add a
  `logTrace` effect before (clear/destroy/unlock) or after (create/lock)
  the wrapped call, exactly as `LOCK_PRE_TRACE`/`LOCK_POST_TRACE` do.
-/

namespace LibosLockSpec

/-- The C struct `libos_lock`: `lock` is the PAL event handle (`none` = `NULL`),
`owner` the holder's thread id (`0` = unheld). -/
structure LibosLock where
  lock : Option Nat
  owner : Nat
deriving DecidableEq, Repr

/-- One observable side effect of a lock operation, in program order:
field assignments and PAL calls. -/
inductive Effect where
  | setOwner (v : Nat)
  | setLockField (v : Option Nat)
  | palEventCreate (initSignaled autoClear : Bool)
  | palEventWait
  | palEventSet
  | palObjectDestroy (h : Option Nat)
  | logTrace
deriving DecidableEq, Repr

/-- Whether an effect is a call into the PAL (backing-resource) layer. -/
def Effect.isPalCall : Effect → Bool
  | .palEventCreate _ _ => true
  | .palEventWait => true
  | .palEventSet => true
  | .palObjectDestroy _ => true
  | _ => false

/-- Whether an effect is a `PalObjectDestroy` call. -/
def Effect.isObjDestroy : Effect → Bool
  | .palObjectDestroy _ => true
  | _ => false

/-- Embedding of `lock_created(l)`: `return l->lock != NULL;` -/
def lock_created (l : LibosLock) : Bool :=
  l.lock.isSome

/-- Embedding of `_clear_lock(l)`: `l->lock = NULL; l->owner = 0;` -/
def _clear_lock (_l : LibosLock) : LibosLock × List Effect :=
  (⟨none, 0⟩, [.setLockField none, .setOwner 0])

/-- Embedding of `_create_lock(l)`: `l->owner = 0;
return PalEventCreate(&l->lock, true, true) == 0;`
On PAL failure the handle field is not written (it keeps its old value);
the boolean result is `true` iff the PAL call returned `0`. -/
def _create_lock (pal : Bool → Bool → Option Nat) (l : LibosLock) :
    LibosLock × Bool × List Effect :=
  match pal true true with
  | some h => (⟨some h, 0⟩, true, [.setOwner 0, .palEventCreate true true])
  | none => (⟨l.lock, 0⟩, false, [.setOwner 0, .palEventCreate true true])

/-- Embedding of `_destroy_lock(l)`: `PalObjectDestroy(l->lock); _clear_lock(l);`
(no assertion in the source). -/
def _destroy_lock (l : LibosLock) : LibosLock × List Effect :=
  ((_clear_lock l).1, .palObjectDestroy l.lock :: (_clear_lock l).2)

/-- The retry loop `while (PalEventWait(l->lock, NULL) < 0) ;` where `w k`
is the return value of the k-th wait call.  Returns the index of the first
successful call at or after `i`, or `none` if the fuel runs out. -/
def waitRetryLoop (w : Nat → Int) : Nat → Nat → Option Nat
  | 0, _ => none
  | fuel + 1, i => if w i < 0 then waitRetryLoop w fuel (i + 1) else some i

/-- Outcome of `_lock`: assertion failure, loop still running (fuel
exhausted), or completion with the new state, the number of wait calls
made, and the effect trace. -/
inductive LockOutcome where
  | assertFail
  | stillWaiting
  | done (l : LibosLock) (waitCalls : Nat) (tr : List Effect)
deriving DecidableEq, Repr

/-- The final lock state of a `_lock` outcome, if it completed. -/
def LockOutcome.stateOf : LockOutcome → Option LibosLock
  | .done l _ _ => some l
  | _ => none

/-- Embedding of `_lock(l)`: `assert(l->lock);
while (PalEventWait(l->lock, NULL) < 0) ; l->owner = get_cur_tid();`
`tid` is the calling thread's `get_cur_tid()`. -/
def _lock (w : Nat → Int) (tid fuel : Nat) (l : LibosLock) : LockOutcome :=
  if l.lock.isSome then
    match waitRetryLoop w fuel 0 with
    | some i =>
      .done { l with owner := tid } (i + 1)
        (List.replicate (i + 1) .palEventWait ++ [.setOwner tid])
    | none => .stillWaiting
  else .assertFail

/-- Outcome of `_unlock`: assertion failure or completion. -/
inductive UnlockOutcome where
  | assertFail
  | done (l : LibosLock) (tr : List Effect)
deriving DecidableEq, Repr

/-- The final lock state of an `_unlock` outcome, if it completed. -/
def UnlockOutcome.stateOf : UnlockOutcome → Option LibosLock
  | .done l _ => some l
  | _ => none

/-- Embedding of `_unlock(l)`: `assert(l->lock); l->owner = 0; PalEventSet(l->lock);` -/
def _unlock (l : LibosLock) : UnlockOutcome :=
  if l.lock.isSome then .done ⟨l.lock, 0⟩ [.setOwner 0, .palEventSet]
  else .assertFail

/-- Embedding of `locked(l)` (DEBUG only): `if (!l->lock) return false;
return get_cur_tid() == l->owner;` -/
def locked (tid : Nat) (l : LibosLock) : Bool :=
  if l.lock.isNone then false else tid == l.owner

/-- Traced `create_lock` macro: calls `_create_lock`, stores the result in
the `__create_lock_result` temporary, emits the trace, then yields the
stored result.  With `tracing = false` it is the plain `#else` alias. -/
def create_lock (tracing : Bool) (pal : Bool → Bool → Option Nat)
    (l : LibosLock) : LibosLock × Bool × List Effect :=
  if tracing then
    ((_create_lock pal l).1, (_create_lock pal l).2.1,
      (_create_lock pal l).2.2 ++ [.logTrace])
  else _create_lock pal l

/-- Traced `clear_lock` macro (`LOCK_PRE_TRACE`: log, then call). -/
def clear_lock (tracing : Bool) (l : LibosLock) : LibosLock × List Effect :=
  if tracing then ((_clear_lock l).1, .logTrace :: (_clear_lock l).2)
  else _clear_lock l

/-- Traced `destroy_lock` macro (`LOCK_PRE_TRACE`: log, then call). -/
def destroy_lock (tracing : Bool) (l : LibosLock) : LibosLock × List Effect :=
  if tracing then ((_destroy_lock l).1, .logTrace :: (_destroy_lock l).2)
  else _destroy_lock l

/-- Traced `lock` macro (`LOCK_POST_TRACE`: call, then log). -/
def lock (tracing : Bool) (w : Nat → Int) (tid fuel : Nat) (l : LibosLock) :
    LockOutcome :=
  if tracing then
    match _lock w tid fuel l with
    | .done l2 c tr => .done l2 c (tr ++ [.logTrace])
    | o => o
  else _lock w tid fuel l

/-- Traced `unlock` macro (`LOCK_PRE_TRACE`: log, then call). -/
def unlock (tracing : Bool) (l : LibosLock) : UnlockOutcome :=
  if tracing then
    match _unlock l with
    | .done l2 tr => .done l2 (.logTrace :: tr)
    | o => o
  else _unlock l

/-!
Interleaving model for mutual exclusion (claims about concurrent use).

A PAL auto-clear event together with any number of threads running
`_lock` / `_unlock` on one lock.  Each thread's progress through the two
functions is a program counter; a step is one atomic action of one thread.
The `waitConsume` step embodies the event's auto-clear contract: a
successful `PalEventWait` atomically resets the event
(`signaled := false`).  `_unlock` is split into its two statements
(`l->owner = 0` at the release call, then `PalEventSet`).
-/

/-- A PAL event: a binary signal with auto-clear-on-consume semantics.
`palEventWaitStep` returns `none` when the wait would block. -/
structure PalEvent where
  signaled : Bool
deriving DecidableEq, Repr

/-- A single `PalEventWait` on an auto-clear event: succeeds exactly when
the event is signaled, atomically resetting it. -/
def palEventWaitStep (e : PalEvent) : Option PalEvent :=
  if e.signaled then some ⟨false⟩ else none

/-- Program counter of one thread with respect to one lock. -/
inductive PC where
  | idle
  | waiting
  | settingOwner
  | inCS
  | signaling
deriving DecidableEq, Repr

/-- A thread holds the exclusion token when it is past a successful wait
and has not yet re-signaled the event: about to write `owner`
(`settingOwner`), inside the critical section (`inCS`, i.e. between its
acquire-return and its release-call), or inside `_unlock` before
`PalEventSet` (`signaling`). -/
def PC.isHolder : PC → Bool
  | .settingOwner => true
  | .inCS => true
  | .signaling => true
  | _ => false

/-- Global state of the interleaving model: the event, the lock's `owner`
field, and every thread's program counter. -/
structure SysState where
  signaled : Bool
  owner : Nat
  pcOf : Nat → PC

/-- State right after a successful `_create_lock`: event created signaled
(`init_signaled = true`), `owner = 0`, all threads idle. -/
def initState : SysState :=
  { signaled := true, owner := 0, pcOf := fun _ => .idle }

/-- One atomic action of thread `t`, following the statements of `_lock`
and `_unlock`. -/
inductive SysStep : SysState → SysState → Prop where
  | acquireCall (s : SysState) (t : Nat) : s.pcOf t = .idle →
      SysStep s { s with pcOf := Function.update s.pcOf t .waiting }
  | waitTransientFail (s : SysState) (t : Nat) : s.pcOf t = .waiting →
      SysStep s s
  | waitConsume (s : SysState) (t : Nat) : s.pcOf t = .waiting →
      s.signaled = true →
      SysStep s { s with signaled := false,
                         pcOf := Function.update s.pcOf t .settingOwner }
  | acquireReturn (s : SysState) (t : Nat) : s.pcOf t = .settingOwner →
      SysStep s { s with owner := t,
                         pcOf := Function.update s.pcOf t .inCS }
  | releaseCall (s : SysState) (t : Nat) : s.pcOf t = .inCS →
      SysStep s { s with owner := 0,
                         pcOf := Function.update s.pcOf t .signaling }
  | releaseSignal (s : SysState) (t : Nat) : s.pcOf t = .signaling →
      SysStep s { s with signaled := true,
                         pcOf := Function.update s.pcOf t .idle }

/-- States reachable from the freshly created lock. -/
inductive Reachable : SysState → Prop where
  | init : Reachable initState
  | step {s s' : SysState} : Reachable s → SysStep s s' → Reachable s'

/-- The inductive invariant: at most one thread holds the exclusion token,
and while the event is signaled nobody does. -/
def Inv (s : SysState) : Prop :=
  (∀ t u, (s.pcOf t).isHolder = true → (s.pcOf u).isHolder = true → t = u) ∧
  (s.signaled = true → ∀ t, (s.pcOf t).isHolder = false)

theorem inv_initState : Inv initState := by
  constructor
  · intro t u ht _
    simp [initState, PC.isHolder] at ht
  · intro _ t
    simp [initState, PC.isHolder]

theorem inv_step {s s' : SysState} (hInv : Inv s) (hstep : SysStep s s') :
    Inv s' := by
  obtain ⟨huniq, hsig⟩ := hInv
  cases hstep with
  | acquireCall t ht =>
    constructor
    · intro a b ha hb
      apply huniq a b
      · by_cases hat : a = t
        · subst hat; simp [Function.update, PC.isHolder] at ha
        · simpa [Function.update, hat] using ha
      · by_cases hbt : b = t
        · subst hbt; simp [Function.update, PC.isHolder] at hb
        · simpa [Function.update, hbt] using hb
    · intro hs a
      by_cases hat : a = t
      · subst hat; simp [Function.update, PC.isHolder]
      · simpa [Function.update, hat] using hsig hs a
  | waitTransientFail t ht =>
    exact ⟨huniq, hsig⟩
  | waitConsume t ht hs =>
    constructor
    · intro a b ha hb
      by_cases hat : a = t
      · by_cases hbt : b = t
        · rw [hat, hbt]
        · exfalso
          simp [Function.update, hbt] at hb
          have := hsig hs b
          rw [this] at hb
          exact Bool.noConfusion hb
      · exfalso
        simp [Function.update, hat] at ha
        have := hsig hs a
        rw [this] at ha
        exact Bool.noConfusion ha
    · intro hs' _
      simp at hs'
  | acquireReturn t ht =>
    constructor
    · intro a b ha hb
      apply huniq a b
      · by_cases hat : a = t
        · subst hat; rw [ht]; rfl
        · simpa [Function.update, hat] using ha
      · by_cases hbt : b = t
        · subst hbt; rw [ht]; rfl
        · simpa [Function.update, hbt] using hb
    · intro hs' a
      exfalso
      have := hsig hs' t
      rw [ht] at this
      exact Bool.noConfusion this
  | releaseCall t ht =>
    constructor
    · intro a b ha hb
      apply huniq a b
      · by_cases hat : a = t
        · subst hat; rw [ht]; rfl
        · simpa [Function.update, hat] using ha
      · by_cases hbt : b = t
        · subst hbt; rw [ht]; rfl
        · simpa [Function.update, hbt] using hb
    · intro hs' a
      exfalso
      have := hsig hs' t
      rw [ht] at this
      exact Bool.noConfusion this
  | releaseSignal t ht =>
    constructor
    · intro a b ha hb
      apply huniq a b
      · by_cases hat : a = t
        · subst hat; simp [Function.update, PC.isHolder] at ha
        · simpa [Function.update, hat] using ha
      · by_cases hbt : b = t
        · subst hbt; simp [Function.update, PC.isHolder] at hb
        · simpa [Function.update, hbt] using hb
    · intro _ a
      by_cases hat : a = t
      · subst hat; simp [Function.update, PC.isHolder]
      · simp [Function.update, hat]
        by_cases hh : (s.pcOf a).isHolder = true
        · exfalso
          have hat' : a = t := huniq a t hh (by rw [ht]; rfl)
          exact hat hat'
        · simpa using hh

theorem inv_reachable {s : SysState} (h : Reachable s) : Inv s := by
  induction h with
  | init => exact inv_initState
  | step _ hstep ih => exact inv_step ih hstep

/-- Claim C1 (mutual exclusion): in every state reachable by interleaving
concurrent `_lock` / `_unlock` steps on a single lock, no two distinct
threads are simultaneously inside the critical section (between their own
successful acquire-return, `PC.inCS` entry, and their release-call).
Exclusion is delivered by the event's auto-clear semantics: the
`waitConsume` step atomically resets the event on a successful wait. -/
theorem mutual_exclusion (s : SysState) (t u : Nat) (hs : Reachable s)
    (ht : s.pcOf t = .inCS) (hu : s.pcOf u = .inCS) : t = u :=
  (inv_reachable hs).1 t u (by rw [ht]; rfl) (by rw [hu]; rfl)

/-- Witness state: thread 7 has called acquire on a fresh lock. -/
def wState1 : SysState :=
  { initState with pcOf := Function.update initState.pcOf 7 .waiting }

/-- Witness state: thread 7's wait consumed the initial signal. -/
def wState2 : SysState :=
  { wState1 with signaled := false,
                 pcOf := Function.update wState1.pcOf 7 .settingOwner }

/-- Witness state: thread 7's acquire has returned; it is in the critical
section and recorded as owner. -/
def wState3 : SysState :=
  { wState2 with owner := 7, pcOf := Function.update wState2.pcOf 7 .inCS }

theorem mutual_exclusion_witness :
    Reachable wState3 ∧ wState3.pcOf 7 = PC.inCS ∧ 7 = 7 := by
  have h1 : Reachable wState1 :=
    Reachable.step Reachable.init (SysStep.acquireCall initState 7 rfl)
  have hw1 : wState1.pcOf 7 = PC.waiting := by
    simp [wState1, initState, Function.update]
  have h2 : Reachable wState2 :=
    Reachable.step h1 (SysStep.waitConsume wState1 7 hw1 rfl)
  have hw2 : wState2.pcOf 7 = PC.settingOwner := by
    simp [wState2, Function.update]
  have h3 : Reachable wState3 :=
    Reachable.step h2 (SysStep.acquireReturn wState2 7 hw2)
  have hcs : wState3.pcOf 7 = PC.inCS := by
    simp [wState3, Function.update]
  exact ⟨h3, hcs, mutual_exclusion wState3 7 7 h3 hcs hcs⟩

/-- If the wait calls starting at index `i` fail `n` times and the call at
`i + n` succeeds, the retry loop stops exactly at index `i + n` (given
enough fuel). -/
theorem waitRetryLoop_spec (w : Nat → Int) :
    ∀ (n i fuel : Nat), (∀ k, k < n → w (i + k) < 0) → 0 ≤ w (i + n) →
      n < fuel → waitRetryLoop w fuel i = some (i + n) := by
  intro n
  induction n with
  | zero =>
    intro i fuel _ hsucc hfuel
    match fuel, hfuel with
    | f + 1, _ =>
      rw [Nat.add_zero] at hsucc
      simp only [waitRetryLoop, if_neg (not_lt.mpr hsucc), Nat.add_zero]
  | succ n ih =>
    intro i fuel hfail hsucc hfuel
    match fuel, hfuel with
    | f + 1, hf =>
      have h0 : w i < 0 := by
        have := hfail 0 (Nat.succ_pos n)
        rwa [Nat.add_zero] at this
      have hfail' : ∀ k, k < n → w (i + 1 + k) < 0 := by
        intro k hk
        have := hfail (k + 1) (Nat.succ_lt_succ hk)
        rwa [show i + (k + 1) = i + 1 + k by omega] at this
      have hsucc' : 0 ≤ w (i + 1 + n) := by
        rwa [show i + (n + 1) = i + 1 + n by omega] at hsucc
      have hf' : n < f := Nat.lt_of_succ_lt_succ hf
      simp only [waitRetryLoop, if_pos h0]
      rw [ih (i + 1) f hfail' hsucc' hf']
      congr 1
      omega

/-- Claim C2 (retry correctness): for every `N`, if the underlying wait
reports a transient error (`< 0`) on its first `N` calls and succeeds on
call `N`, then `_lock` (with a valid handle and enough fuel) returns
successfully — never an error outcome — having invoked `PalEventWait`
exactly `N + 1` times, and the resulting lock state records the calling
thread as `owner`. -/
theorem acquire_retry_correct (w : Nat → Int) (N tid fuel : Nat)
    (l : LibosLock) (hl : l.lock.isSome = true)
    (hfail : ∀ k, k < N → w k < 0) (hsucc : 0 ≤ w N) (hfuel : N < fuel) :
    _lock w tid fuel l =
      .done { l with owner := tid } (N + 1)
        (List.replicate (N + 1) .palEventWait ++ [.setOwner tid]) := by
  have hloop : waitRetryLoop w fuel 0 = some N := by
    have h := waitRetryLoop_spec w N 0 fuel
      (fun k hk => by simpa using hfail k hk) (by simpa using hsucc) hfuel
    simpa using h
  simp only [_lock, hl, if_true, hloop]

theorem acquire_retry_correct_witness :
    _lock (fun k => if k < 2 then -1 else 0) 7 5 ⟨some 3, 9⟩ =
      .done ⟨some 3, 7⟩ 3
        (List.replicate 3 .palEventWait ++ [.setOwner 7]) :=
  acquire_retry_correct (fun k => if k < 2 then -1 else 0) 2 7 5 ⟨some 3, 9⟩
    (by decide) (by decide) (by decide) (by decide)

/-- Claim C3 counterexample: the claim says `destroy` on an empty handle
fails a debug assertion, but `_destroy_lock` in the source contains no
assertion: on a lock with an empty handle it completes normally and passes
the empty handle straight to `PalObjectDestroy`. -/
theorem destroy_missing_assert_counterexample :
    _destroy_lock ⟨none, 5⟩ =
      (⟨none, 0⟩,
        [.palObjectDestroy none, .setLockField none, .setOwner 0]) := rfl

/-- Claim C3 (amended): `_lock` and `_unlock` check the handle-is-valid
precondition by `assert(l->lock)` before touching the backing resource
(on an empty handle they fail the assertion); `_destroy_lock` performs no
such check and invokes `PalObjectDestroy` even on an empty handle. -/
theorem assert_enforcement (w : Nat → Int) (tid fuel : Nat) (l : LibosLock)
    (h : l.lock = none) :
    _lock w tid fuel l = .assertFail ∧ _unlock l = .assertFail ∧
    (_destroy_lock l).2 =
      [.palObjectDestroy none, .setLockField none, .setOwner 0] := by
  refine ⟨?_, ?_, ?_⟩ <;>
    simp [_lock, _unlock, _destroy_lock, _clear_lock, h]

theorem assert_enforcement_witness :
    _lock (fun _ => 0) 7 1 ⟨none, 4⟩ = .assertFail ∧
    _unlock ⟨none, 4⟩ = .assertFail ∧
    (_destroy_lock ⟨none, 4⟩).2 =
      [.palObjectDestroy none, .setLockField none, .setOwner 0] :=
  assert_enforcement (fun _ => 0) 7 1 ⟨none, 4⟩ rfl

/-- Claim C4 (release ordering): on a lock with a valid handle, `_unlock`
clears `owner` to the empty sentinel `0` and its effect trace is
`[setOwner 0, palEventSet]` — every `PalEventSet` in the trace is strictly
preceded by the `owner := 0` write, so the signal is never issued while
the previous holder's identity is still recorded. -/
theorem release_ordering (l : LibosLock) (h : l.lock.isSome = true) :
    ∃ tr, _unlock l = .done ⟨l.lock, 0⟩ tr ∧
      tr = [.setOwner 0, .palEventSet] ∧
      ∀ i, tr.get? i = some Effect.palEventSet →
        ∃ j, j < i ∧ tr.get? j = some (Effect.setOwner 0) := by
  refine ⟨[.setOwner 0, .palEventSet], by simp [_unlock, h], rfl, ?_⟩
  intro i hi
  match i with
  | 0 => simp at hi
  | 1 => exact ⟨0, Nat.zero_lt_one, rfl⟩
  | n + 2 => simp at hi

theorem release_ordering_witness :
    ∃ tr, _unlock ⟨some 3, 7⟩ = .done ⟨some 3, 0⟩ tr ∧
      tr = [.setOwner 0, .palEventSet] ∧
      ∀ i, tr.get? i = some Effect.palEventSet →
        ∃ j, j < i ∧ tr.get? j = some (Effect.setOwner 0) :=
  release_ordering ⟨some 3, 7⟩ rfl

/-- Claim C5 (create behaviour and failure atomicity): `_create_lock` resets
`owner` to `0` before requesting the backing event (the effect trace is
`[setOwner 0, palEventCreate true true]`); the event is requested with
`init_signaled = true` and `auto_clear = true`, and a signaled auto-clear
event grants the very first wait immediately while resetting it; the
boolean result is `true` exactly when event creation succeeds; and on
failure `owner` is the empty sentinel — no partially-successful state. -/
theorem create_spec (pal : Bool → Bool → Option Nat) (l : LibosLock) :
    (_create_lock pal l).1.owner = 0 ∧
    (_create_lock pal l).2.1 = (pal true true).isSome ∧
    (_create_lock pal l).2.2 = [.setOwner 0, .palEventCreate true true] ∧
    ((_create_lock pal l).2.1 = true →
      (_create_lock pal l).1.lock = pal true true) ∧
    ((_create_lock pal l).2.1 = false → (_create_lock pal l).1.owner = 0) ∧
    palEventWaitStep ⟨true⟩ = some ⟨false⟩ := by
  cases hp : pal true true <;>
    simp [_create_lock, hp, palEventWaitStep]

theorem create_spec_witness :
    (_create_lock (fun _ _ => some 5) ⟨none, 3⟩).1.owner = 0 ∧
    (_create_lock (fun _ _ => some 5) ⟨none, 3⟩).2.1 =
      ((fun (_ _ : Bool) => some 5) true true).isSome ∧
    (_create_lock (fun _ _ => some 5) ⟨none, 3⟩).2.2 =
      [.setOwner 0, .palEventCreate true true] ∧
    ((_create_lock (fun _ _ => some 5) ⟨none, 3⟩).2.1 = true →
      (_create_lock (fun _ _ => some 5) ⟨none, 3⟩).1.lock =
        (fun (_ _ : Bool) => some 5) true true) ∧
    ((_create_lock (fun _ _ => some 5) ⟨none, 3⟩).2.1 = false →
      (_create_lock (fun _ _ => some 5) ⟨none, 3⟩).1.owner = 0) ∧
    palEventWaitStep ⟨true⟩ = some ⟨false⟩ :=
  create_spec (fun _ _ => some 5) ⟨none, 3⟩

/-- Claim C6 (destroy semantics): on a lock with a valid handle,
`_destroy_lock` performs exactly one `PalObjectDestroy` — on the held
handle, before the clear effects — and then performs the clear, so the
final state has both fields at their empty sentinels, identical to the
post-state of `_clear_lock`. -/
theorem destroy_spec (l : LibosLock) (h : l.lock.isSome = true) :
    _destroy_lock l =
      ((_clear_lock l).1,
        [.palObjectDestroy l.lock, .setLockField none, .setOwner 0]) ∧
    (_destroy_lock l).1 = ⟨none, 0⟩ ∧
    (_destroy_lock l).1 = (_clear_lock l).1 ∧
    List.countP (fun e => e.isObjDestroy) (_destroy_lock l).2 = 1 := by
  refine ⟨rfl, rfl, rfl, ?_⟩
  simp [_destroy_lock, _clear_lock, List.countP, List.countP.go,
    Effect.isObjDestroy]

theorem destroy_spec_witness :
    _destroy_lock ⟨some 3, 7⟩ =
      ((_clear_lock ⟨some 3, 7⟩).1,
        [.palObjectDestroy (some 3), .setLockField none, .setOwner 0]) ∧
    (_destroy_lock ⟨some 3, 7⟩).1 = ⟨none, 0⟩ ∧
    (_destroy_lock ⟨some 3, 7⟩).1 = (_clear_lock ⟨some 3, 7⟩).1 ∧
    List.countP (fun e => e.isObjDestroy) (_destroy_lock ⟨some 3, 7⟩).2 = 1 :=
  destroy_spec ⟨some 3, 7⟩ rfl

/-- Claim C7 (clear is idempotent and resource-neutral): `_clear_lock` sets
both fields to their empty sentinels, performs no PAL call, applying it
twice equals applying it once, and on an already-empty lock it leaves the
state unchanged. -/
theorem clear_spec (l : LibosLock) :
    (_clear_lock l).1 = ⟨none, 0⟩ ∧
    (∀ e ∈ (_clear_lock l).2, e.isPalCall = false) ∧
    (_clear_lock (_clear_lock l).1).1 = (_clear_lock l).1 ∧
    (l = ⟨none, 0⟩ → (_clear_lock l).1 = l) := by
  refine ⟨rfl, ?_, rfl, ?_⟩
  · intro e he
    simp only [_clear_lock, List.mem_cons, List.mem_singleton] at he
    rcases he with h | h | h
    · rw [h]; rfl
    · rw [h]; rfl
    · cases h
  · intro h
    rw [h]
    rfl

/-- Claim C8 (debug ownership query): `locked` returns `false` when the
handle is empty, and otherwise returns exactly whether the calling
thread's id equals `owner`; consequently it is `true` for the calling
thread on the state produced by that thread's successful `_lock`, `false`
on the state produced by `_unlock` (thread ids are non-zero), and `false`
for any thread whose id differs from the recorded owner. -/
theorem locked_spec (tid : Nat) (l : LibosLock) (htid : 0 < tid) :
    (l.lock = none → locked tid l = false) ∧
    (l.lock.isSome = true → locked tid l = (tid == l.owner)) ∧
    (∀ w fuel l2 c tr, _lock w tid fuel l = .done l2 c tr →
      locked tid l2 = true) ∧
    (∀ l2 tr, _unlock l = .done l2 tr → locked tid l2 = false) ∧
    (∀ u, u ≠ l.owner → l.lock.isSome = true → locked u l = false) := by
  have htid0 : tid ≠ 0 := Nat.pos_iff_ne_zero.mp htid
  refine ⟨?_, ?_, ?_, ?_, ?_⟩
  · intro h
    simp [locked, h]
  · intro h
    cases hx : l.lock with
    | none => rw [hx] at h; exact Bool.noConfusion h
    | some v => simp [locked, hx]
  · intro w fuel l2 c tr hdone
    simp only [_lock] at hdone
    cases hx : l.lock with
    | none => rw [hx] at hdone; simp at hdone
    | some v =>
      rw [hx] at hdone
      simp only [Option.isSome_some, if_true] at hdone
      cases hw : waitRetryLoop w fuel 0 with
      | none => rw [hw] at hdone; simp at hdone
      | some i =>
        rw [hw] at hdone
        simp only [LockOutcome.done.injEq] at hdone
        obtain ⟨h1, _, _⟩ := hdone
        rw [← h1]
        simp [locked]
  · intro l2 tr hdone
    simp only [_unlock] at hdone
    cases hx : l.lock with
    | none => rw [hx] at hdone; simp at hdone
    | some v =>
      rw [hx] at hdone
      simp only [Option.isSome_some, if_true,
        UnlockOutcome.done.injEq] at hdone
      obtain ⟨h1, _⟩ := hdone
      rw [← h1]
      simp [locked, htid0]
  · intro u hu hl
    cases hx : l.lock with
    | none => rw [hx] at hl; exact Bool.noConfusion hl
    | some v => simp [locked, hx, hu]

theorem locked_spec_witness :
    ((some 3 : Option Nat) = none → locked 7 ⟨some 3, 7⟩ = false) ∧
    ((some 3 : Option Nat).isSome = true →
      locked 7 ⟨some 3, 7⟩ = (7 == 7)) ∧
    (∀ w fuel l2 c tr, _lock w 7 fuel ⟨some 3, 7⟩ = .done l2 c tr →
      locked 7 l2 = true) ∧
    (∀ l2 tr, _unlock ⟨some 3, 7⟩ = .done l2 tr → locked 7 l2 = false) ∧
    (∀ u, u ≠ 7 → (some 3 : Option Nat).isSome = true →
      locked u ⟨some 3, 7⟩ = false) :=
  locked_spec 7 ⟨some 3, 7⟩ (by decide)

/-- Claim C9 (tracing is a non-semantic decorator): with tracing disabled
each wrapped operation is definitionally the direct call to its untraced
implementation; with tracing enabled each wrapped operation yields the
same lock state (`handle` and `owner`) as the untraced implementation,
and the traced `create_lock` returns the same boolean result. -/
theorem tracing_noninterference (pal : Bool → Bool → Option Nat)
    (w : Nat → Int) (tid fuel : Nat) (l : LibosLock) :
    create_lock false pal l = _create_lock pal l ∧
    clear_lock false l = _clear_lock l ∧
    destroy_lock false l = _destroy_lock l ∧
    lock false w tid fuel l = _lock w tid fuel l ∧
    unlock false l = _unlock l ∧
    (create_lock true pal l).1 = (_create_lock pal l).1 ∧
    (create_lock true pal l).2.1 = (_create_lock pal l).2.1 ∧
    (clear_lock true l).1 = (_clear_lock l).1 ∧
    (destroy_lock true l).1 = (_destroy_lock l).1 ∧
    (lock true w tid fuel l).stateOf = (_lock w tid fuel l).stateOf ∧
    (unlock true l).stateOf = (_unlock l).stateOf := by
  refine ⟨rfl, rfl, rfl, rfl, rfl, rfl, rfl, rfl, rfl, ?_, ?_⟩
  · simp only [lock, if_true]
    cases _lock w tid fuel l <;> rfl
  · simp only [unlock, if_true]
    cases _unlock l <;> rfl

/-- Claim C10 (implicit `lock_created` query): `lock_created` returns `true`
exactly when the lock's handle is non-empty; hence it is `true` on the
state produced by a successful `_create_lock`, and `false` on the states
produced by `_clear_lock` and `_destroy_lock`.  It is a pure function of
the lock state and modifies nothing. -/
theorem lock_created_spec (pal : Bool → Bool → Option Nat) (l : LibosLock) :
    lock_created l = l.lock.isSome ∧
    ((_create_lock pal l).2.1 = true →
      lock_created (_create_lock pal l).1 = true) ∧
    lock_created (_clear_lock l).1 = false ∧
    lock_created (_destroy_lock l).1 = false := by
  refine ⟨rfl, ?_, rfl, rfl⟩
  intro h
  cases hp : pal true true with
  | some v => simp [lock_created, _create_lock, hp]
  | none =>
    simp only [_create_lock, hp] at h
    exact Bool.noConfusion h

theorem lock_created_spec_witness :
    lock_created ⟨none, 2⟩ = (none : Option Nat).isSome ∧
    ((_create_lock (fun _ _ => some 4) ⟨none, 2⟩).2.1 = true →
      lock_created (_create_lock (fun _ _ => some 4) ⟨none, 2⟩).1 = true) ∧
    lock_created (_clear_lock ⟨none, 2⟩).1 = false ∧
    lock_created (_destroy_lock ⟨none, 2⟩).1 = false :=
  lock_created_spec (fun _ _ => some 4) ⟨none, 2⟩

theorem clear_spec_witness :
    (_clear_lock ⟨none, 0⟩).1 = ⟨none, 0⟩ ∧
    (∀ e ∈ (_clear_lock ⟨none, 0⟩).2, e.isPalCall = false) ∧
    (_clear_lock (_clear_lock ⟨none, 0⟩).1).1 = (_clear_lock ⟨none, 0⟩).1 ∧
    ((⟨none, 0⟩ : LibosLock) = ⟨none, 0⟩ →
      (_clear_lock ⟨none, 0⟩).1 = ⟨none, 0⟩) :=
  clear_spec ⟨none, 0⟩

end LibosLockSpec
